import Mathlib

/-!
Verification of the Signal-Lane real-time chat server against its design
specification. The wire payload types follow src/src/types/socket.ts; the
client hook logic follows the useChat hook; the REST handlers follow
src/src/app/api/users/route.ts and src/src/app/api/messages/route.ts; the
utility functions follow the utils module. The relay module
src/lib/socket.ts (initSocket) is not present in the sources, so its
behavior is modelled from the specification text where noted.
-/

namespace SignalLane

/-- Payload of the client-to-server identify event: optional display name
and the phone used as identity key (src/src/types/socket.ts). A missing
field is `none`; a present field is `some`. -/
structure IdentifyPayload where
  name : Option String
  phone : Option String
deriving DecidableEq

/-- Payload of a chat message on the wire (SignalMessage in
src/src/types/socket.ts): optional id and timestamp, with name, phone and
content modelled as `Option` so that missing fields are representable. -/
structure MsgPayload where
  msgId : Option String
  name : Option String
  phone : Option String
  content : Option String
  timestamp : Option String
deriving DecidableEq

/-- Payload of the typing event: sender name and the typing flag, each
`Option` so that a missing field is representable. -/
structure TypingPayload where
  name : Option String
  typing : Option Bool
deriving DecidableEq

/-- One live server-side connection: the socket id plus the identity data
bound by a previous identify event (SocketData in src/src/types/socket.ts). -/
structure ServerConn where
  sid : Nat
  name : Option String
  phone : Option String
deriving DecidableEq

/-- The relay state: the ordered list of live connections. -/
abbrev ServerState := List ServerConn

/-- A server-to-client emission: a relayed message, a relayed typing
signal, or a serverInfo presence update carrying connectedUsers. -/
inductive Output where
  | message (dest : Nat) (p : MsgPayload)
  | typing (dest : Nat) (name : String) (flag : Bool)
  | serverInfo (dest : Nat) (connectedUsers : Nat)
deriving DecidableEq

/-- An inbound event at the relay: transport connect and disconnect plus
the three client-to-server wire events. -/
inductive WireEvent where
  | connect (sid : Nat)
  | identify (sid : Nat) (p : IdentifyPayload)
  | message (sid : Nat) (p : MsgPayload)
  | typing (sid : Nat) (p : TypingPayload)
  | disconnect (sid : Nat)
deriving DecidableEq

/-- The socket ids of the live connections. -/
def sids (s : ServerState) : List Nat := s.map (fun c => c.sid)

/-- One serverInfo output per live connection, all carrying the same
count: the presence broadcast goes to every live connection, including
the one whose change triggered it. -/
def broadcastInfo (s : ServerState) (n : Nat) : List Output :=
  s.map (fun c => Output.serverInfo c.sid n)

/-- An identify payload is usable when its phone is present and nonempty
(the spec: identify events with an empty or missing phone are silently
ignored). -/
def identifyValid (p : IdentifyPayload) : Bool :=
  match p.phone with
  | some ph => ph ≠ ""
  | none => false

/-- A message payload is usable when name, phone and content are all
present and nonempty (missing required fields are dropped silently). -/
def msgValid (p : MsgPayload) : Bool :=
  p.name.getD "" ≠ "" && p.phone.getD "" ≠ "" && p.content.getD "" ≠ ""

/-- A typing payload is usable when the name is present and nonempty and
the typing flag is present. -/
def typingValid (p : TypingPayload) : Bool :=
  p.name.getD "" ≠ "" && p.typing.isSome

/-- Modelled from the spec: the relay transition of the missing module
src/lib/socket.ts (initSocket event handlers). connect appends a fresh
unbound connection and broadcasts presence to all; identify with a valid
phone rebinds the connection (last call wins) and broadcasts presence;
message and typing events with all required fields are forwarded verbatim
to every live connection except the originator; malformed events are
dropped silently; disconnect removes the connection and broadcasts
presence. Following section 4.2 of the spec, the broadcast count is the
literal source behavior: the raw number of live connections, not the
number of distinct phones. -/
def step (s : ServerState) : WireEvent → ServerState × List Output
  | WireEvent.connect sid =>
      let s' := s ++ [⟨sid, none, none⟩]
      (s', broadcastInfo s' s'.length)
  | WireEvent.identify sid p =>
      if identifyValid p then
        let s' := s.map (fun c =>
          if c.sid = sid then
            { c with
              name := match p.name with
                      | some n => some n
                      | none => c.name,
              phone := p.phone }
          else c)
        (s', broadcastInfo s' s'.length)
      else (s, [])
  | WireEvent.message sid p =>
      if msgValid p then
        (s, (s.filter (fun c => c.sid != sid)).map (fun c => Output.message c.sid p))
      else (s, [])
  | WireEvent.typing sid p =>
      if typingValid p then
        (s, (s.filter (fun c => c.sid != sid)).map
              (fun c => Output.typing c.sid (p.name.getD "") (p.typing.getD false)))
      else (s, [])
  | WireEvent.disconnect sid =>
      let s' := s.filter (fun c => c.sid != sid)
      (s', broadcastInfo s' s'.length)

/-- Run a sequence of events from a state, keeping only the final state. -/
def runState (s : ServerState) : List WireEvent → ServerState
  | [] => s
  | e :: es => runState (step s e).1 es

/-- The nonempty phones currently bound to at least one live connection. -/
def phonesOf (s : ServerState) : List String :=
  (s.filterMap (fun c => c.phone)).filter (fun ph => ph != "")

/-- The number of distinct phones with at least one live connection. -/
def distinctPhones (s : ServerState) : Nat :=
  (phonesOf s).dedup.length

/-- The Socket.IO server instance attached to the Node HTTP server; the
handler registration count records how many times the wire event handlers
have been registered on it. -/
structure RelayInstance where
  instId : Nat
  handlerRegistrations : Nat
deriving DecidableEq

/-- The Node HTTP server underlying Next.js, with the optional attached
relay instance (the SocketServer type of src/src/types/socket.ts, whose
optional field holds the Socket.IO server once initialized). -/
structure HttpServer where
  relay : Option RelayInstance
  nextInstId : Nat
deriving DecidableEq

/-- Modelled from the spec: initSocket of the missing module
src/lib/socket.ts. Per section 4.1 the start operation is guarded by a
single initialization check: when an instance is already attached it is
returned unchanged; otherwise a fresh instance is created, its event
handlers are registered exactly once, and it is stored on the server.
The caller src/src/pages/api/socket.ts performs the same check on the
stored instance before calling. -/
def initSocket (srv : HttpServer) : HttpServer × RelayInstance :=
  match srv.relay with
  | some inst => (srv, inst)
  | none =>
      let inst : RelayInstance := ⟨srv.nextInstId, 1⟩
      (⟨some inst, srv.nextInstId + 1⟩, inst)

/-- The deliveries produced for one inbound message event when the wire
event handlers have been registered `regs` times: each registration
relays the event once. -/
def relayWithHandlers (regs : Nat) (s : ServerState) (origin : Nat)
    (p : MsgPayload) : List Output :=
  (List.replicate regs (step s (WireEvent.message origin p)).2).flatten

/-- Whitespace as matched by the JavaScript regex class backslash-s and
trimmed by String.prototype.trim (ASCII part). -/
def isJsSpace (c : Char) : Bool :=
  c = ' ' || c = '\t' || c = '\n' || c = '\r' || c = '\x0b' || c = '\x0c'

/-- JavaScript String.prototype.trim: removes leading and trailing
whitespace. -/
def jsTrim (s : String) : String :=
  String.mk (((s.data.dropWhile isJsSpace).reverse.dropWhile isJsSpace).reverse)

/-- isValidName from the utils module: rejects the empty string, then
requires the trimmed length to be between 2 and 40. -/
def isValidName (name : String) : Bool :=
  if name = "" then false
  else
    let t := jsTrim name
    decide (2 ≤ t.length) && decide (t.length ≤ 40)

/-- isValidPhone from the utils module: the trimmed input must match an
optional leading plus sign followed by 8 to 20 characters, each a digit
or whitespace. -/
def isValidPhone (phone : String) : Bool :=
  let t := jsTrim phone
  let rest := if t.data.head? = some '+' then String.mk t.data.tail else t
  decide (8 ≤ rest.length) && decide (rest.length ≤ 20) &&
    rest.data.all (fun c => c.isDigit || isJsSpace c)

/-- maskPhone from the utils module, on the character sequence of the
input. prefixLength is min(3, max(0, length - 4 - 3)); the result keeps
that prefix, fills with stars, and keeps the last four characters; when
the star count length - 4 - prefixLength is negative, String.repeat
throws a RangeError, modelled as the error case. -/
def maskPhone (phone : List Char) : Except String (List Char) :=
  let visibleDigits : Int := 4
  let prefixLength : Int := min 3 (max 0 ((phone.length : Int) - visibleDigits - 3))
  let pfx := phone.take prefixLength.toNat
  let sfx := phone.drop (phone.length - 4)
  let stars : Int := (phone.length : Int) - visibleDigits - prefixLength
  if stars < 0 then Except.error "RangeError: Invalid count value"
  else Except.ok (pfx ++ List.replicate stars.toNat '*' ++ sfx)

/-- A chat message as received by the useChat client hook: name, phone
and content are present on every relayed message. -/
structure ClientMessage where
  msgId : Option String
  name : String
  phone : String
  content : String
  timestamp : Option String
deriving DecidableEq

/-- The message event handler of the useChat hook: a message whose phone
equals the local phone is ignored, every other message is appended to
the local list. -/
def onMessageEvent (localPhone : String) (msgs : List ClientMessage)
    (msg : ClientMessage) : List ClientMessage :=
  if msg.phone = localPhone then msgs else msgs ++ [msg]

/-- The observable steps taken by the sendMessage function of the useChat
hook: warnings for invalid input or a disconnected socket, the optimistic
local append, the emit over the socket, the persistence request to
POST /api/messages, and the success or failure log of that request. -/
inductive ClientAction where
  | warnInvalid
  | warnDisconnected
  | appendLocal (name phone content : String)
  | emitMessage (name phone content : String)
  | persistRequest (name phone content : String)
  | debugPersisted
  | logPersistError
deriving DecidableEq

/-- sendMessage of the useChat hook: with a missing name or phone or a
blank content it only warns; with a disconnected socket it only warns;
otherwise it appends the message locally under the display name You,
emits it verbatim to the server, and then issues the persistence
request, logging success or failure of persistence locally. -/
def sendMessage (name phone : Option String) (content : String)
    (connected : Bool) (persistOk : Bool) : List ClientAction :=
  if name.getD "" = "" ∨ phone.getD "" = "" ∨ jsTrim content = "" then
    [ClientAction.warnInvalid]
  else if !connected then
    [ClientAction.warnDisconnected]
  else
    [ClientAction.appendLocal "You" (phone.getD "") content,
     ClientAction.emitMessage (name.getD "") (phone.getD "") content,
     ClientAction.persistRequest (name.getD "") (phone.getD "") content] ++
    (if persistOk then [ClientAction.debugPersisted]
     else [ClientAction.logPersistError])

/-- The actions of a sendMessage run that other connected clients can
observe: only the socket emissions. -/
def clientEmits (as : List ClientAction) : List ClientAction :=
  as.filter (fun a =>
    match a with
    | ClientAction.emitMessage _ _ _ => true
    | _ => false)

/-- A persisted chat message row of the message table, with the database
timestamp used for ordering. -/
structure StoredMessage where
  mid : Nat
  name : String
  phone : String
  content : String
  timestamp : Nat
deriving DecidableEq

/-- Insert a message into a list that is ascending by timestamp. -/
def insertByTs (m : StoredMessage) : List StoredMessage → List StoredMessage
  | [] => [m]
  | x :: xs =>
      if m.timestamp ≤ x.timestamp then m :: x :: xs else x :: insertByTs m xs

/-- The rows of the message table ordered by timestamp ascending, as
produced by the Prisma orderBy clause. -/
def sortByTs (db : List StoredMessage) : List StoredMessage :=
  db.foldr insertByTs []

/-- GET of src/src/app/api/messages/route.ts: findMany with orderBy
timestamp ascending and take 50, that is, the first 50 rows of the
ascending order. -/
def messagesGET (db : List StoredMessage) : List StoredMessage :=
  (sortByTs db).take 50

/-- The behavior the spec describes for GET /messages: the most recent
50 messages, in ascending timestamp order — the last 50 rows of the
ascending order. Stated from the spec for comparison with messagesGET. -/
def recentFiftyAscending (db : List StoredMessage) : List StoredMessage :=
  let s := sortByTs db
  s.drop (s.length - 50)

/-- A registered user row of the user table. -/
structure User where
  uid : Nat
  name : String
  phone : String
deriving DecidableEq

/-- The user table plus the next generated id. -/
structure UserDb where
  users : List User
  nextId : Nat
deriving DecidableEq

/-- The outcome of one POST /api/users request: HTTP status, the
returned user record when there is one, and the resulting table. -/
structure UsersPostResult where
  status : Nat
  user : Option User
  db : UserDb
deriving DecidableEq

/-- POST of src/src/app/api/users/route.ts: validates name and phone
(400 on failure), then looks the phone up; an existing row is returned
as the JSON body with the default status 200, otherwise a new row is
created and returned with status 201. A store error raises and is
answered with 500. -/
def usersPOST (db : UserDb) (storeFails : Bool) (name phone : String) :
    UsersPostResult :=
  if isValidName name && isValidPhone phone then
    if storeFails then ⟨500, none, db⟩
    else
      match db.users.find? (fun u => u.phone == phone) with
      | some u => ⟨200, some u, db⟩
      | none =>
          let u : User := ⟨db.nextId, name, phone⟩
          ⟨201, some u, ⟨db.users ++ [u], db.nextId + 1⟩⟩
  else ⟨400, none, db⟩

/-- A wire event that is missing a required field: identify without a
nonempty phone, message without name, phone or content, typing without a
name or without the flag. -/
def eventMalformed : WireEvent → Bool
  | WireEvent.identify _ p => !identifyValid p
  | WireEvent.message _ p => !msgValid p
  | WireEvent.typing _ p => !typingValid p
  | _ => false

lemma count_map_out (l : List ServerConn) (f : Nat → Output)
    (hf : ∀ a b : Nat, f a = f b → a = b) (x : Nat) :
    (l.map (fun c => f c.sid)).count (f x) = (l.map (fun c => c.sid)).count x := by
  induction l with
  | nil => rfl
  | cons a t ih =>
      simp only [List.map_cons, List.count_cons, ih]
      by_cases h : a.sid = x
      · simp [h]
      · have h2 : ¬ (f x = f a.sid) := fun he => h (hf _ _ he.symm)
        have h3 : ¬ (f a.sid = f x) := fun he => h (hf _ _ he)
        simp [h, h2, h3]

lemma sids_filter_nodup (s : ServerState) (q : ServerConn → Bool)
    (hnodup : (sids s).Nodup) : ((s.filter q).map (fun c => c.sid)).Nodup :=
  List.Nodup.sublist (List.Sublist.map _ (List.filter_sublist s)) hnodup

lemma stepMessage_outputs (s : ServerState) (origin : Nat) (p : MsgPayload)
    (hvalid : msgValid p = true) :
    (step s (WireEvent.message origin p)).2 =
      (s.filter (fun c => c.sid != origin)).map (fun c => Output.message c.sid p) := by
  simp [step, hvalid]

lemma stepMessage_count_one (s : ServerState) (origin : Nat) (p : MsgPayload)
    (hvalid : msgValid p = true) (hnodup : (sids s).Nodup)
    (c : ServerConn) (hc : c ∈ s) (hco : c.sid ≠ origin) :
    ((step s (WireEvent.message origin p)).2).count (Output.message c.sid p) = 1 := by
  rw [stepMessage_outputs s origin p hvalid]
  rw [count_map_out _ (fun d => Output.message d p)
    (by intro a b h; simpa using h)]
  exact List.count_eq_one_of_mem (sids_filter_nodup s _ hnodup)
    (List.mem_map_of_mem _ (List.mem_filter.mpr ⟨hc, by simpa using hco⟩))

/-- C1: the source ties the broadcast connectedUsers to the raw number of
live connections, so two connections identifying with the same phone are
reported as 2 although only one distinct phone is live: the broadcast
after the fourth event of the scenario carries connectedUsers 2 while
distinctPhones of the resulting state is 1. -/
theorem c1_presence_double_counts_same_phone :
    (step (runState [] [WireEvent.connect 1,
        WireEvent.identify 1 ⟨none, some "111"⟩, WireEvent.connect 2])
      (WireEvent.identify 2 ⟨none, some "111"⟩)).2 =
      [Output.serverInfo 1 2, Output.serverInfo 2 2] ∧
    distinctPhones (step (runState [] [WireEvent.connect 1,
        WireEvent.identify 1 ⟨none, some "111"⟩, WireEvent.connect 2])
      (WireEvent.identify 2 ⟨none, some "111"⟩)).1 = 1 ∧
    (2 : Nat) ≠ 1 := by
  decide

/-- C5: on a history of 51 messages with timestamps 0 to 50, the GET
handler (orderBy timestamp ascending, take 50) returns the 50 oldest
messages, not the most recent 50 in ascending order that the route
comment and the spec describe. -/
theorem c5_get_returns_oldest_not_recent :
    messagesGET ((List.range 51).map (fun i => ⟨i, "u", "111", "m", i⟩)) =
      (List.range 50).map (fun i => ⟨i, "u", "111", "m", i⟩) ∧
    recentFiftyAscending ((List.range 51).map (fun i => ⟨i, "u", "111", "m", i⟩)) =
      (List.range 50).map (fun i => ⟨i + 1, "u", "111", "m", i + 1⟩) ∧
    messagesGET ((List.range 51).map (fun i => ⟨i, "u", "111", "m", i⟩)) ≠
      recentFiftyAscending ((List.range 51).map (fun i => ⟨i, "u", "111", "m", i⟩)) := by
  refine ⟨by decide, by decide, by decide⟩

/-- C9: the useChat message handler appends an incoming message to the
local list exactly when its phone differs from the local phone, and
drops every message whose phone equals the local phone. -/
theorem c9_client_drops_own_phone (lp : String) (msgs : List ClientMessage)
    (m : ClientMessage) :
    (m.phone ≠ lp → onMessageEvent lp msgs m = msgs ++ [m]) ∧
    (m.phone = lp → onMessageEvent lp msgs m = msgs) ∧
    (onMessageEvent lp msgs m = msgs ++ [m] ↔ m.phone ≠ lp) := by
  refine ⟨fun h => by simp [onMessageEvent, h], fun h => by simp [onMessageEvent, h], ?_, ?_⟩
  · intro h heq
    rw [onMessageEvent, if_pos heq] at h
    have hlen := congrArg List.length h
    simp at hlen
  · intro h
    simp [onMessageEvent, h]

/-- C2: a message event from origin with all required fields, relayed
over a state whose socket ids are distinct, is delivered exactly once to
every other live connection, never to the origin, and every produced
output is that verbatim payload addressed to a live non-origin
connection. -/
theorem c2_relay_exactly_once_no_echo (s : ServerState) (origin : Nat)
    (p : MsgPayload) (hvalid : msgValid p = true) (hnodup : (sids s).Nodup) :
    (∀ c ∈ s, c.sid ≠ origin →
      ((step s (WireEvent.message origin p)).2).count (Output.message c.sid p) = 1) ∧
    (∀ q : MsgPayload, Output.message origin q ∉ (step s (WireEvent.message origin p)).2) ∧
    (∀ o ∈ (step s (WireEvent.message origin p)).2,
      ∃ d, o = Output.message d p ∧ d ≠ origin ∧ d ∈ sids s) := by
  refine ⟨fun c hc hco => stepMessage_count_one s origin p hvalid hnodup c hc hco, ?_, ?_⟩
  · intro q hq
    rw [stepMessage_outputs s origin p hvalid] at hq
    obtain ⟨c, hcmem, heq⟩ := List.mem_map.mp hq
    have hsid : c.sid = origin := by
      have := (Output.message.injEq _ _ _ _).mp heq
      exact this.1
    have hne : (c.sid != origin) = true := (List.mem_filter.mp hcmem).2
    simp [hsid] at hne
  · intro o ho
    rw [stepMessage_outputs s origin p hvalid] at ho
    obtain ⟨c, hcmem, rfl⟩ := List.mem_map.mp ho
    refine ⟨c.sid, rfl, by simpa using (List.mem_filter.mp hcmem).2, ?_⟩
    exact List.mem_map_of_mem _ (List.mem_filter.mp hcmem).1

/-- Witness for C2: with connections 1 and 2 live and a valid payload
from origin 1, connection 2 receives exactly one copy and no output is
addressed to connection 1. -/
theorem c2_relay_exactly_once_no_echo_witness :
    ((step [⟨1, none, some "111"⟩, ⟨2, none, some "222"⟩]
        (WireEvent.message 1 ⟨none, some "A", some "111", some "hi", none⟩)).2).count
      (Output.message 2 ⟨none, some "A", some "111", some "hi", none⟩) = 1 ∧
    Output.message 1 ⟨none, some "A", some "111", some "hi", none⟩ ∉
      (step [⟨1, none, some "111"⟩, ⟨2, none, some "222"⟩]
        (WireEvent.message 1 ⟨none, some "A", some "111", some "hi", none⟩)).2 := by
  have h := c2_relay_exactly_once_no_echo
    [⟨1, none, some "111"⟩, ⟨2, none, some "222"⟩] 1
    ⟨none, some "A", some "111", some "hi", none⟩ (by decide) (by decide)
  exact ⟨h.1 ⟨2, none, some "222"⟩ (by decide) (by decide),
    h.2.1 ⟨none, some "A", some "111", some "hi", none⟩⟩

/-- C3: on a server with no attached instance, the second initSocket call
returns exactly the result of the first call without creating a new
instance, the handler registrations of the returned instance stay at 1,
and a message event relayed with that registration count is delivered
exactly once to each other live connection. -/
theorem c3_initSocket_idempotent (srv : HttpServer) (hfresh : srv.relay = none)
    (s : ServerState) (origin : Nat) (p : MsgPayload) (c : ServerConn)
    (hvalid : msgValid p = true) (hnodup : (sids s).Nodup)
    (hc : c ∈ s) (hco : c.sid ≠ origin) :
    initSocket (initSocket srv).1 = initSocket srv ∧
    (initSocket (initSocket srv).1).2.handlerRegistrations = 1 ∧
    (relayWithHandlers (initSocket (initSocket srv).1).2.handlerRegistrations
        s origin p).count (Output.message c.sid p) = 1 := by
  have h1 : initSocket srv =
      (⟨some ⟨srv.nextInstId, 1⟩, srv.nextInstId + 1⟩, ⟨srv.nextInstId, 1⟩) := by
    simp [initSocket, hfresh]
  have h2 : initSocket (initSocket srv).1 = initSocket srv := by
    rw [h1]
    simp [initSocket]
  refine ⟨h2, by rw [h2, h1], ?_⟩
  rw [h2, h1]
  show (relayWithHandlers 1 s origin p).count (Output.message c.sid p) = 1
  have hrel : relayWithHandlers 1 s origin p = (step s (WireEvent.message origin p)).2 := by
    simp [relayWithHandlers]
  rw [hrel]
  exact stepMessage_count_one s origin p hvalid hnodup c hc hco

/-- Witness for C3 at a fresh server with connections 1 and 2: two start
calls agree and connection 2 still receives exactly one copy. -/
theorem c3_initSocket_idempotent_witness :
    initSocket (initSocket ⟨none, 0⟩).1 = initSocket ⟨none, 0⟩ ∧
    (initSocket (initSocket ⟨none, 0⟩).1).2.handlerRegistrations = 1 ∧
    (relayWithHandlers (initSocket (initSocket ⟨none, 0⟩).1).2.handlerRegistrations
        [⟨1, none, some "111"⟩, ⟨2, none, some "222"⟩] 1
        ⟨none, some "A", some "111", some "hi", none⟩).count
      (Output.message 2 ⟨none, some "A", some "111", some "hi", none⟩) = 1 :=
  c3_initSocket_idempotent ⟨none, 0⟩ rfl
    [⟨1, none, some "111"⟩, ⟨2, none, some "222"⟩] 1
    ⟨none, some "A", some "111", some "hi", none⟩ ⟨2, none, some "222"⟩
    (by decide) (by decide) (by decide) (by decide)

/-- C6: an identify, message or typing event that is missing a required
field leaves the connection list unchanged (the sender is not torn down)
and produces no output at all, so no other client receives it. -/
theorem c6_malformed_dropped_silently (s : ServerState) (ev : WireEvent)
    (h : eventMalformed ev = true) :
    step s ev = (s, []) := by
  cases ev with
  | connect sid => simp [eventMalformed] at h
  | identify sid p =>
      simp only [eventMalformed, Bool.not_eq_true'] at h
      simp [step, h]
  | message sid p =>
      simp only [eventMalformed, Bool.not_eq_true'] at h
      simp [step, h]
  | typing sid p =>
      simp only [eventMalformed, Bool.not_eq_true'] at h
      simp [step, h]
  | disconnect sid => simp [eventMalformed] at h

/-- Witness for C6: an identify with an empty phone, a message with no
content and a typing event with no flag are all dropped while connection
1 stays live. -/
theorem c6_malformed_dropped_silently_witness :
    step [⟨1, none, none⟩] (WireEvent.identify 1 ⟨some "A", some ""⟩) =
      ([⟨1, none, none⟩], []) ∧
    step [⟨1, none, none⟩] (WireEvent.message 1 ⟨none, some "A", some "111", none, none⟩) =
      ([⟨1, none, none⟩], []) ∧
    step [⟨1, none, none⟩] (WireEvent.typing 1 ⟨some "A", none⟩) =
      ([⟨1, none, none⟩], []) :=
  ⟨c6_malformed_dropped_silently _ _ (by decide),
   c6_malformed_dropped_silently _ _ (by decide),
   c6_malformed_dropped_silently _ _ (by decide)⟩

/-- C7: a connect produces exactly the presence broadcast of the new
state — one serverInfo carrying the new count to every live connection,
including the new connection itself, each exactly once — and a
disconnect produces exactly the presence broadcast of the remaining
state, one serverInfo to each remaining connection. -/
theorem c7_presence_broadcast_on_connect_disconnect (s : ServerState)
    (sid d : Nat) (hnodup : (sids s).Nodup) (hfresh : sid ∉ sids s) :
    ((step s (WireEvent.connect sid)).2 =
      broadcastInfo (step s (WireEvent.connect sid)).1
        (step s (WireEvent.connect sid)).1.length) ∧
    (Output.serverInfo sid (step s (WireEvent.connect sid)).1.length ∈
      (step s (WireEvent.connect sid)).2) ∧
    (∀ c ∈ (step s (WireEvent.connect sid)).1,
      ((step s (WireEvent.connect sid)).2).count
        (Output.serverInfo c.sid (step s (WireEvent.connect sid)).1.length) = 1) ∧
    ((step s (WireEvent.disconnect d)).2 =
      broadcastInfo (step s (WireEvent.disconnect d)).1
        (step s (WireEvent.disconnect d)).1.length) ∧
    (∀ c ∈ (step s (WireEvent.disconnect d)).1,
      ((step s (WireEvent.disconnect d)).2).count
        (Output.serverInfo c.sid (step s (WireEvent.disconnect d)).1.length) = 1) := by
  have hinj : ∀ n : Nat, ∀ a b : Nat,
      Output.serverInfo a n = Output.serverInfo b n → a = b := by
    intro n a b h
    simpa using h
  have hconn : (step s (WireEvent.connect sid)).1 = s ++ [⟨sid, none, none⟩] := rfl
  have hconnNodup : ((s ++ [(⟨sid, none, none⟩ : ServerConn)]).map (fun c => c.sid)).Nodup := by
    rw [List.map_append]
    refine List.Nodup.append hnodup (List.nodup_singleton _) ?_
    intro x hx hy
    simp only [List.map_cons, List.map_nil, List.mem_singleton] at hy
    subst hy
    exact hfresh hx
  have hdisc : (step s (WireEvent.disconnect d)).1 =
      s.filter (fun c => c.sid != d) := rfl
  refine ⟨rfl, ?_, ?_, rfl, ?_⟩
  · show Output.serverInfo sid _ ∈ broadcastInfo (s ++ [⟨sid, none, none⟩]) _
    exact List.mem_map_of_mem _ (List.mem_append_right _ (List.mem_singleton_self _))
  · intro c hc
    rw [hconn] at hc
    have houts : (step s (WireEvent.connect sid)).2 =
        (s ++ [(⟨sid, none, none⟩ : ServerConn)]).map
          (fun c => Output.serverInfo c.sid
            (s ++ [(⟨sid, none, none⟩ : ServerConn)]).length) := rfl
    rw [houts, hconn,
      count_map_out _ (fun a => Output.serverInfo a
        ((s ++ [(⟨sid, none, none⟩ : ServerConn)]).length)) (hinj _)]
    exact List.count_eq_one_of_mem hconnNodup (List.mem_map_of_mem _ hc)
  · intro c hc
    rw [hdisc] at hc
    have houts : (step s (WireEvent.disconnect d)).2 =
        (s.filter (fun c => c.sid != d)).map
          (fun c => Output.serverInfo c.sid (s.filter (fun c => c.sid != d)).length) := rfl
    rw [houts, hdisc,
      count_map_out _ (fun a => Output.serverInfo a
        ((s.filter (fun c => c.sid != d)).length)) (hinj _)]
    exact List.count_eq_one_of_mem (sids_filter_nodup s _ hnodup)
      (List.mem_map_of_mem _ hc)

/-- Witness for C7: connection 2 joining the state with connection 1
yields one serverInfo with count 2 to each of 1 and 2; connection 2
leaving yields one serverInfo with count 1 to connection 1. -/
theorem c7_presence_broadcast_witness :
    (step [⟨1, none, some "111"⟩] (WireEvent.connect 2)).2 =
      broadcastInfo (step [⟨1, none, some "111"⟩] (WireEvent.connect 2)).1
        (step [⟨1, none, some "111"⟩] (WireEvent.connect 2)).1.length ∧
    Output.serverInfo 2 (step [⟨1, none, some "111"⟩] (WireEvent.connect 2)).1.length ∈
      (step [⟨1, none, some "111"⟩] (WireEvent.connect 2)).2 ∧
    ((step [⟨1, none, some "111"⟩] (WireEvent.disconnect 2)).2).count
      (Output.serverInfo 1
        (step [⟨1, none, some "111"⟩] (WireEvent.disconnect 2)).1.length) = 1 := by
  have h := c7_presence_broadcast_on_connect_disconnect
    [⟨1, none, some "111"⟩] 2 2 (by decide) (by decide)
  exact ⟨h.1, h.2.1, h.2.2.2.2 ⟨1, none, some "111"⟩ (by decide)⟩

/-- C4: with a valid identity and nonblank content on a connected socket,
the send path emits the message to the relay before issuing the
persistence request; a persistence failure only adds a local error log —
the actions other clients can observe are exactly one verbatim emit,
identical whether persistence succeeds or fails. -/
theorem c4_persist_after_broadcast_failure_logged (n ph content : String)
    (hn : n ≠ "") (hp : ph ≠ "") (hc : jsTrim content ≠ "") :
    sendMessage (some n) (some ph) content true false =
      [ClientAction.appendLocal "You" ph content,
       ClientAction.emitMessage n ph content,
       ClientAction.persistRequest n ph content,
       ClientAction.logPersistError] ∧
    clientEmits (sendMessage (some n) (some ph) content true false) =
      clientEmits (sendMessage (some n) (some ph) content true true) ∧
    clientEmits (sendMessage (some n) (some ph) content true false) =
      [ClientAction.emitMessage n ph content] := by
  refine ⟨?_, ?_, ?_⟩ <;> simp [sendMessage, clientEmits, hn, hp, hc]

/-- Witness for C4 at a concrete send of hi by A with phone 111. -/
theorem c4_persist_after_broadcast_failure_logged_witness :
    sendMessage (some "A") (some "111") "hi" true false =
      [ClientAction.appendLocal "You" "111" "hi",
       ClientAction.emitMessage "A" "111" "hi",
       ClientAction.persistRequest "A" "111" "hi",
       ClientAction.logPersistError] ∧
    clientEmits (sendMessage (some "A") (some "111") "hi" true false) =
      clientEmits (sendMessage (some "A") (some "111") "hi" true true) ∧
    clientEmits (sendMessage (some "A") (some "111") "hi" true false) =
      [ClientAction.emitMessage "A" "111" "hi"] :=
  c4_persist_after_broadcast_failure_logged "A" "111" "hi"
    (by decide) (by decide) (by decide)

/-- C8 counterexample: registering Alice with phone 12345678 on an empty
store returns 201, but posting the same valid phone again returns the
existing record with status 200, not 201 as the claim states for every
valid call. -/
theorem c8_repeat_post_returns_200 :
    (usersPOST ⟨[], 1⟩ false "Alice" "12345678").status = 201 ∧
    (usersPOST (usersPOST ⟨[], 1⟩ false "Alice" "12345678").db
      false "Alice" "12345678").status = 200 ∧
    (usersPOST (usersPOST ⟨[], 1⟩ false "Alice" "12345678").db
      false "Alice" "12345678").status ≠ 201 := by
  refine ⟨by decide, by decide, by decide⟩

/-- C8 amended: a valid registration of an unseen phone returns 201 with
the new record; a repeated valid call with the same phone returns the
same record with status 200 and leaves the store unchanged, so exactly
one row with that phone exists; invalid input yields 400 and a store
failure yields 500, in both cases without touching the store. -/
theorem c8_users_post_find_or_create (db : UserDb) (name name2 phone : String)
    (hv1 : (isValidName name && isValidPhone phone) = true)
    (hv2 : (isValidName name2 && isValidPhone phone) = true)
    (hnew : db.users.find? (fun u => u.phone == phone) = none) :
    (usersPOST db false name phone).status = 201 ∧
    (usersPOST db false name phone).user = some ⟨db.nextId, name, phone⟩ ∧
    (usersPOST (usersPOST db false name phone).db false name2 phone).status = 200 ∧
    (usersPOST (usersPOST db false name phone).db false name2 phone).user =
      (usersPOST db false name phone).user ∧
    (usersPOST (usersPOST db false name phone).db false name2 phone).db =
      (usersPOST db false name phone).db ∧
    ((usersPOST db false name phone).db.users.countP
      (fun u => u.phone == phone)) = 1 ∧
    (∀ nm pp fl, (isValidName nm && isValidPhone pp) = false →
      usersPOST db fl nm pp = ⟨400, none, db⟩) ∧
    (∀ nm pp, (isValidName nm && isValidPhone pp) = true →
      usersPOST db true nm pp = ⟨500, none, db⟩) := by
  have h1 : usersPOST db false name phone =
      ⟨201, some ⟨db.nextId, name, phone⟩,
        ⟨db.users ++ [⟨db.nextId, name, phone⟩], db.nextId + 1⟩⟩ := by
    simp [usersPOST, hv1, hnew]
  have hfind2 : ((db.users ++ [(⟨db.nextId, name, phone⟩ : User)]).find?
      (fun u => u.phone == phone)) = some ⟨db.nextId, name, phone⟩ := by
    rw [List.find?_append, hnew]
    simp
  have h2 : usersPOST (usersPOST db false name phone).db false name2 phone =
      ⟨200, some ⟨db.nextId, name, phone⟩,
        ⟨db.users ++ [⟨db.nextId, name, phone⟩], db.nextId + 1⟩⟩ := by
    rw [h1]
    simp [usersPOST, hv2, hfind2]
  have hcount0 : db.users.countP (fun u => u.phone == phone) = 0 := by
    rw [List.countP_eq_zero]
    intro u hu
    exact List.find?_eq_none.mp hnew u hu
  refine ⟨by rw [h1], by rw [h1], by rw [h2], by rw [h2, h1], by rw [h2, h1], ?_, ?_, ?_⟩
  · rw [h1]
    simp [List.countP_append, hcount0]
  · intro nm pp fl h
    simp [usersPOST, h]
  · intro nm pp h
    simp [usersPOST, h]

/-- Witness for C8 amended at an empty store, Alice then Bob with phone
12345678: statuses 201 then 200, same record, one stored row. -/
theorem c8_users_post_find_or_create_witness :
    (usersPOST ⟨[], 1⟩ false "Alice" "12345678").status = 201 ∧
    (usersPOST (usersPOST ⟨[], 1⟩ false "Alice" "12345678").db
      false "Bob" "12345678").status = 200 ∧
    (usersPOST (usersPOST ⟨[], 1⟩ false "Alice" "12345678").db
      false "Bob" "12345678").user =
      (usersPOST ⟨[], 1⟩ false "Alice" "12345678").user ∧
    ((usersPOST ⟨[], 1⟩ false "Alice" "12345678").db.users.countP
      (fun u => u.phone == "12345678")) = 1 ∧
    usersPOST ⟨[], 1⟩ false "" "" = ⟨400, none, ⟨[], 1⟩⟩ ∧
    usersPOST ⟨[], 1⟩ true "Alice" "12345678" = ⟨500, none, ⟨[], 1⟩⟩ := by
  have h := c8_users_post_find_or_create ⟨[], 1⟩ "Alice" "Bob" "12345678"
    (by decide) (by decide) rfl
  exact ⟨h.1, h.2.2.1, h.2.2.2.1, h.2.2.2.2.2.1,
    h.2.2.2.2.2.2.1 "" "" false (by decide), h.2.2.2.2.2.2.2 "Alice" "12345678" (by decide)⟩

/-- Witness for C9 at concrete inputs: a message from phone 2 is appended
for local phone 1, a message from phone 1 is dropped. -/
theorem c9_client_drops_own_phone_witness :
    onMessageEvent "1" [] ⟨none, "B", "2", "hi", none⟩ =
      [⟨none, "B", "2", "hi", none⟩] ∧
    onMessageEvent "1" [] ⟨none, "A", "1", "hi", none⟩ = [] :=
  ⟨(c9_client_drops_own_phone "1" [] ⟨none, "B", "2", "hi", none⟩).1 (by decide),
   (c9_client_drops_own_phone "1" [] ⟨none, "A", "1", "hi", none⟩).2.1 rfl⟩

lemma maskPhone_ok_of_len (p : List Char) (hp : 4 ≤ p.length) :
    maskPhone p = Except.ok
      (p.take (min 3 (max 0 ((p.length : Int) - 4 - 3))).toNat ++
        List.replicate ((p.length : Int) - 4 -
            min 3 (max 0 ((p.length : Int) - 4 - 3))).toNat '*' ++
          p.drop (p.length - 4)) := by
  simp only [maskPhone]
  split
  · next h => exfalso; omega
  · rfl

/-- C10: for every input of length at least 4, maskPhone succeeds and
returns a string of the same length ending in the same last four
characters; on the length-2 input 12 the star count is negative and
String.repeat raises a RangeError, modelled as the error result. -/
theorem c10_maskPhone_partial_below_four_chars :
    (∀ p : List Char, 4 ≤ p.length →
      ∃ r, maskPhone p = Except.ok r ∧ r.length = p.length ∧
        r.drop (r.length - 4) = p.drop (p.length - 4)) ∧
    maskPhone ['1', '2'] = Except.error "RangeError: Invalid count value" := by
  constructor
  · intro p hp
    refine ⟨_, maskPhone_ok_of_len p hp, ?_, ?_⟩
    · simp only [List.length_append, List.length_take, List.length_replicate,
        List.length_drop]
      omega
    · have hlen : (p.take (min 3 (max 0 ((p.length : Int) - 4 - 3))).toNat ++
          List.replicate ((p.length : Int) - 4 -
              min 3 (max 0 ((p.length : Int) - 4 - 3))).toNat '*' ++
            p.drop (p.length - 4)).length = p.length := by
        simp only [List.length_append, List.length_take, List.length_replicate,
          List.length_drop]
        omega
      have hmid : (p.take (min 3 (max 0 ((p.length : Int) - 4 - 3))).toNat ++
          List.replicate ((p.length : Int) - 4 -
              min 3 (max 0 ((p.length : Int) - 4 - 3))).toNat '*').length =
          p.length - 4 := by
        simp only [List.length_append, List.length_take, List.length_replicate]
        omega
      rw [hlen, List.drop_append_eq_append_drop,
        List.drop_eq_nil_of_le (le_of_eq hmid), hmid, Nat.sub_self,
        List.drop_zero, List.nil_append]
  · rfl

/-- Witness for C10 at the length-8 input 12345678: the masked result
has length 8 and ends in 5678. -/
theorem c10_maskPhone_partial_witness :
    ∃ r, maskPhone ['1', '2', '3', '4', '5', '6', '7', '8'] = Except.ok r ∧
      r.length = 8 ∧ r.drop (r.length - 4) = ['5', '6', '7', '8'] := by
  obtain ⟨r, h1, h2, h3⟩ := c10_maskPhone_partial_below_four_chars.1
    ['1', '2', '3', '4', '5', '6', '7', '8'] (by decide)
  exact ⟨r, h1, h2.trans (by decide), h3.trans (by decide)⟩

end SignalLane
